import Mathlib

/-!
Verification of the go-chat connection hub and message-dispatch subsystem.

The Go sources under `internal/websocket` declare the Hub, Client and
MessageHandler with their full signatures and an extensive test suite, but the
method bodies are `TODO` stubs; following the design document, those operations
are modelled here from the spec (each such definition is marked
`Modelled from the spec:`).  The prototype connection loop under
`internal/server/client.go`, the client-side channel bookkeeping
(`Client.JoinChannel` / `Client.LeaveChannel`), the protocol constants and
`NewClient`, and `MessageService.CreateMessage` are implemented in the sources
and are embedded directly from the code.
-/

namespace GoChat

/-- Identity of one live `*websocket.Client` (Go pointer identity). -/
abbrev ClientId := Nat

/-- Channel identifier (Go `channelID string`). -/
abbrev ChannelId := String

/-- User identifier (Go `userID string`). -/
abbrev UserId := String

/-- The tagged wire message (`Envelope` union of the design document; Go
`chat.WebSocketMessage` with its payload variants). -/
inductive Envelope where
  | chat (messageID : String) (channelID : ChannelId) (senderID : UserId)
      (senderName : String) (content : String)
  | join (channelID : ChannelId) (userID : UserId) (username : String)
  | leave (channelID : ChannelId) (userID : UserId) (username : String)
  | typing (channelID : ChannelId) (userID : UserId) (username : String) (isTyping : Bool)
  | ping
  | pong
  | err (code : String) (message : String)
  | ack (messageID : String)
deriving DecidableEq

/-- Capacity of a client's buffered outbound queue: `make(chan []byte, 256)`
in `NewClient`. -/
def sendCapacity : Nat := 256

/-- The shared mutable state of the hub together with the per-connection
state the Go code keeps on each `Client`:
`clients` is the registry (`hub.clients` key set), `members` is
`hub.channels` (channel id to member set), `joined` is each client's own
`client.channels` set, `queue` is each client's buffered `send` channel
contents, `closing` records a forced slow-consumer disconnect. -/
structure HubState where
  clients : List ClientId
  members : ChannelId → List ClientId
  joined : ClientId → List ChannelId
  queue : ClientId → List Envelope
  closing : ClientId → Bool

/-- The freshly constructed hub (`NewHub()`): empty registry, empty channel
index. -/
def emptyHub : HubState :=
  { clients := []
    members := fun _ => []
    joined := fun _ => []
    queue := fun _ => []
    closing := fun _ => false }

/-- `GetClientCount` (modelled from the spec: the Go body is a stub; the
count of registered connections). -/
def HubState.getClientCount (s : HubState) : Nat := s.clients.length

/-- `GetChannelClientCount` (modelled from the spec: the Go body is a stub;
the size of a channel's member set). -/
def HubState.getChannelClientCount (s : HubState) (ch : ChannelId) : Nat :=
  (s.members ch).length

/-- `IsClientInChannel` (modelled from the spec: the Go body is a stub;
membership of a possibly-nil client in the hub's member set). -/
def HubState.isClientInChannel (s : HubState) (c : Option ClientId) (ch : ChannelId) : Bool :=
  match c with
  | none => false
  | some c => decide (c ∈ s.members ch)

/-- Modelled from the spec: `Hub.RegisterClient` (Go body is a TODO stub).
"adds to registry ...; no-op (not an error) if conn is null or already
registered". -/
def registerClient (s : HubState) (c : Option ClientId) : HubState :=
  match c with
  | none => s
  | some c => if c ∈ s.clients then s else { s with clients := c :: s.clients }

/-- Modelled from the spec: `Hub.UnregisterClient` (Go body is a TODO stub).
"removes from registry ... and every channel member-set it belonged to";
the destroyed connection's own joined-set is discarded with it; idempotent,
no-op on unknown or nil connection. -/
def unregisterClient (s : HubState) (c : Option ClientId) : HubState :=
  match c with
  | none => s
  | some c =>
      if c ∈ s.clients then
        { s with
          clients := s.clients.filter (fun x => decide (x ≠ c))
          members := fun ch => (s.members ch).filter (fun x => decide (x ≠ c))
          joined := fun x => if x = c then [] else s.joined x }
      else s

/-- Modelled from the spec: `Hub.JoinChannel` (Go body is a TODO stub).
"mutate both the Connection's joined-set and the Hub's channel member-set
together, under one critical section; joining twice is a no-op". -/
def hubJoinChannel (s : HubState) (c : Option ClientId) (ch : ChannelId) : HubState :=
  match c with
  | none => s
  | some c =>
      { s with
        members := fun x =>
          if x = ch then
            (if c ∈ s.members ch then s.members ch else s.members ch ++ [c])
          else s.members x
        joined := fun x =>
          if x = c then
            (if ch ∈ s.joined c then s.joined c else s.joined c ++ [ch])
          else s.joined x }

/-- Modelled from the spec: `Hub.LeaveChannel` (Go body is a TODO stub).
Removes the pair from both indexes; leaving a channel never joined is a
no-op. -/
def hubLeaveChannel (s : HubState) (c : Option ClientId) (ch : ChannelId) : HubState :=
  match c with
  | none => s
  | some c =>
      { s with
        members := fun x =>
          if x = ch then (s.members ch).filter (fun y => decide (y ≠ c)) else s.members x
        joined := fun x =>
          if x = c then (s.joined c).filter (fun y => decide (y ≠ ch)) else s.joined x }

/-- Embedded from `internal/websocket` `Client.JoinChannel` (implemented in
the sources): `c.channels[channelID] = true` — it mutates only the client's
own joined-set. -/
def clientJoinChannel (s : HubState) (c : ClientId) (ch : ChannelId) : HubState :=
  { s with
    joined := fun x =>
      if x = c then
        (if ch ∈ s.joined c then s.joined c else s.joined c ++ [ch])
      else s.joined x }

/-- Embedded from `internal/websocket` `Client.LeaveChannel` (implemented in
the sources): `delete(c.channels, channelID)` — it mutates only the client's
own joined-set. -/
def clientLeaveChannel (s : HubState) (c : ClientId) (ch : ChannelId) : HubState :=
  { s with
    joined := fun x =>
      if x = c then (s.joined c).filter (fun y => decide (y ≠ ch)) else s.joined x }

/-- Modelled from the spec: enqueueing one Envelope onto a connection's
bounded outbound queue (`Client.SendMessage` is a TODO stub).  "if the
outbound queue is full when a new Envelope would be enqueued, the Connection
is ... force-transitioned to Closing" and `Close()` "triggers
Hub.UnregisterConnection". -/
def sendEnvelope (s : HubState) (c : ClientId) (e : Envelope) : HubState :=
  if (s.queue c).length < sendCapacity then
    { s with queue := fun x => if x = c then s.queue c ++ [e] else s.queue x }
  else
    unregisterClient
      { s with closing := fun x => if x = c then true else s.closing x } (some c)

/-- One step of the broadcast fan-out loop over the member snapshot. -/
def broadcastStep (e : Envelope) (ex : Option ClientId) (s : HubState) (m : ClientId) :
    HubState :=
  if some m = ex then s else sendEnvelope s m e

/-- Modelled from the spec: `Hub.BroadcastToChannel` (Go body is a TODO
stub).  "takes an immutable snapshot of the channel's current member set,
then enqueues the envelope onto each member's outbound queue except
excludeConn". -/
def broadcastToChannel (s : HubState) (ch : ChannelId) (e : Envelope)
    (ex : Option ClientId) : HubState :=
  (s.members ch).foldl (broadcastStep e ex) s

/-- The mutual-consistency invariant of the design document:
`channel ∈ connection.joined ⇔ connection ∈ hub.channel_members[channel]`. -/
def consistent (s : HubState) : Prop :=
  ∀ c ch, ch ∈ s.joined c ↔ c ∈ s.members ch

/-- Well-formedness of the set representations: Go maps cannot hold
duplicate keys. -/
def wellFormed (s : HubState) : Prop :=
  s.clients.Nodup ∧ (∀ ch, (s.members ch).Nodup) ∧ (∀ c, (s.joined c).Nodup)

/-! Protocol constants, embedded from `internal/websocket` (the `const`
block is implemented in the sources).  Durations are in nanoseconds, the
unit of Go `time.Duration`. -/

/-- Go `time.Second` in nanoseconds. -/
def goSecond : Nat := 1000000000

/-- `writeWait = 10 * time.Second`: time allowed to write a message to the
peer. -/
def writeWait : Nat := 10 * goSecond

/-- `pongWait = 60 * time.Second`: time allowed to read the next pong
message from the peer. -/
def pongWait : Nat := 60 * goSecond

/-- `pingPeriod = (pongWait * 9) / 10`. -/
def pingPeriod : Nat := (pongWait * 9) / 10

/-- `maxMessageSize = 512`: maximum message size allowed from peer. -/
def maxMessageSize : Nat := 512

/-- The fields of a freshly constructed `Client` that the embedding tracks
(`NewClient` is implemented in the sources). -/
structure WsClient where
  userID : UserId
  username : String
  sendCap : Nat
  channels : List ChannelId

/-- Embedded from `internal/websocket` `NewClient`: fresh client with
`send: make(chan []byte, 256)` and an empty `channels` map. -/
def newClient (userID : UserId) (username : String) : WsClient :=
  { userID := userID, username := username, sendCap := 256, channels := [] }

/-! The prototype connection loop, embedded from
`internal/server/client.go` (implemented in the sources). -/

/-- The prototype wire message `chat.Message` / `chat.WSMessage`
(`pkg/chat`): `channel_id`, `sender_id`, `content`, `timestamp`. -/
structure PMessage where
  channelID : String
  senderID : String
  content : String
  timestamp : Int
deriving DecidableEq

/-- The prototype `server.Client`: the fields `ReadPump` consults
(`c.User.ID` and `c.ChannelID`). -/
structure PClient where
  userID : String
  channelID : String

/-- Embedded from the prototype `Client.ReadPump`
(`internal/server/client.go`): after `json.Unmarshal` succeeds, the server
unconditionally overwrites `incoming.SenderID = c.User.ID` and
`incoming.ChannelID = c.ChannelID` before forwarding the message to
`hub.broadcast`. -/
def forwardIncoming (c : PClient) (incoming : PMessage) : PMessage :=
  { incoming with senderID := c.userID, channelID := c.channelID }

/-! Registration event sequences, for the counting property. -/

/-- One registry operation: a `RegisterClient` or `UnregisterClient` call
with a possibly-nil client argument. -/
inductive RegEvent where
  | reg (c : Option ClientId)
  | unreg (c : Option ClientId)
deriving DecidableEq

/-- Apply one registry event to the hub. -/
def applyEvent (s : HubState) : RegEvent → HubState
  | .reg c => registerClient s c
  | .unreg c => unregisterClient s c

/-- Apply a sequence of registry events in order. -/
def applyEvents (s : HubState) (evs : List RegEvent) : HubState :=
  evs.foldl applyEvent s

/-- Whether client `c` is registered after one more event, given whether it
was registered before: the last event mentioning `c` wins. -/
def regStep (c : ClientId) (b : Bool) : RegEvent → Bool
  | .reg (some x) => if x = c then true else b
  | .unreg (some x) => if x = c then false else b
  | _ => b

/-- The spec's notion: `c` was registered at some point and not
subsequently unregistered. -/
def finallyRegistered (evs : List RegEvent) (c : ClientId) : Bool :=
  evs.foldl (regStep c) false

/-- All client ids appearing in non-nil register events, in order. -/
def regIds (evs : List RegEvent) : List ClientId :=
  evs.filterMap fun e =>
    match e with
    | .reg (some x) => some x
    | _ => none

/-- The spec's count: the number of distinct registered connections not
subsequently unregistered. -/
def specClientCount (evs : List RegEvent) : Nat :=
  ((regIds evs).dedup.filter fun c => finallyRegistered evs c).length

/-! The external collaborators' database and the dispatcher. -/

/-- A persisted chat message row (gorm `Message`: `UserID`, `ChannelID`,
`Content`). -/
structure MsgRow where
  userID : UserId
  channelID : ChannelId
  content : String
deriving DecidableEq

/-- The collaborator database: channel-membership rows
(`UserChannel(user_id, channel_id)`) and persisted messages. -/
structure Db where
  userChannels : List (UserId × ChannelId)
  messages : List MsgRow
deriving DecidableEq

/-- The channel-authorization collaborator `canAccess(userID, channelID)`:
whether a membership row exists (the `Where("user_id = ? AND channel_id =
?").First` lookup of `MessageService.CreateMessage`). -/
def canAccess (db : Db) (u : UserId) (ch : ChannelId) : Bool :=
  decide ((u, ch) ∈ db.userChannels)

/-- Embedded from `MessageService.CreateMessage`: refuse with "you are not
a member of this channel" when no membership row exists, otherwise insert
and return the persisted message. -/
def createMessage (db : Db) (u : UserId) (ch : ChannelId) (content : String) :
    Except String (Db × MsgRow) :=
  if canAccess db u ch then
    let m : MsgRow := { userID := u, channelID := ch, content := content }
    Except.ok ({ db with messages := db.messages ++ [m] }, m)
  else
    Except.error "you are not a member of this channel"

/-- The outcome of dispatching one inbound frame: direct replies to the
originating connection, whether the dispatcher closes the connection, the
resulting hub state and database, and the persisted message if any. -/
structure DispatchResult where
  replies : List Envelope
  closeConn : Bool
  state : HubState
  db : Db
  persisted : Option MsgRow

/-- Modelled from the spec: `MessageHandler.handleChatMessage` (Go body is
a TODO stub).  "require the sender to be a current member of the target
channel and not banned ...; on success, persist the message ... then
BroadcastToChannel the persisted Envelope to all members including the
sender; on failure, reply directly to the sender with an error Envelope ...
and do not broadcast". -/
def handleChatMessage (s : HubState) (db : Db) (sender : ClientId) (u : UserId)
    (un : String) (ch : ChannelId) (content : String) : DispatchResult :=
  if canAccess db u ch then
    match createMessage db u ch content with
    | .ok (db', m) =>
        { replies := []
          closeConn := false
          state := broadcastToChannel s ch (.chat "" ch m.userID un m.content) none
          db := db'
          persisted := some m }
    | .error msg =>
        { replies := [.err "INTERNAL_ERROR" msg], closeConn := false
          state := s, db := db, persisted := none }
  else
    { replies := [.err "PERMISSION_DENIED" "you are not a member of this channel"]
      closeConn := false, state := s, db := db, persisted := none }

/-- The decode result of one inbound frame, as seen by the dispatcher's
routing table. -/
inductive Inbound where
  | malformed
  | unknownTag (tag : String)
  | chatMsg (channelID : ChannelId) (content : String)
  | joinCh (channelID : ChannelId)
  | leaveCh (channelID : ChannelId)
  | typingIn (channelID : ChannelId) (isTyping : Bool)
  | ping
deriving DecidableEq

/-- Modelled from the spec: `MessageHandler.HandleMessage` (Go body is a
TODO stub).  Routing table of the design document; "unknown type tag or
malformed JSON: reply with error (code PARSE_ERROR); connection is NOT
closed for a single malformed frame". -/
def handleMessage (s : HubState) (db : Db) (sender : ClientId) (u : UserId)
    (un : String) (f : Inbound) : DispatchResult :=
  match f with
  | .malformed =>
      { replies := [.err "PARSE_ERROR" "invalid message format"], closeConn := false
        state := s, db := db, persisted := none }
  | .unknownTag _ =>
      { replies := [.err "PARSE_ERROR" "unknown message type"], closeConn := false
        state := s, db := db, persisted := none }
  | .chatMsg ch content => handleChatMessage s db sender u un ch content
  | .joinCh ch =>
      if canAccess db u ch then
        let s1 := hubJoinChannel s (some sender) ch
        { replies := [], closeConn := false
          state := broadcastToChannel s1 ch (.join ch u un) (some sender)
          db := db, persisted := none }
      else
        { replies := [.err "PERMISSION_DENIED" "cannot join this channel"]
          closeConn := false, state := s, db := db, persisted := none }
  | .leaveCh ch =>
      let s1 := hubLeaveChannel s (some sender) ch
      { replies := [], closeConn := false
        state := broadcastToChannel s1 ch (.leave ch u un) (some sender)
        db := db, persisted := none }
  | .typingIn ch b =>
      if s.isClientInChannel (some sender) ch then
        { replies := [], closeConn := false
          state := broadcastToChannel s ch (.typing ch u un b) (some sender)
          db := db, persisted := none }
      else
        { replies := [.err "PERMISSION_DENIED" "not a member of this channel"]
          closeConn := false, state := s, db := db, persisted := none }
  | .ping =>
      { replies := [.pong], closeConn := false, state := s, db := db, persisted := none }

/-! Concrete states used to instantiate theorems with hypotheses. -/

/-- A small well-formed, consistent state: client 0 registered and joined
to channel "general". -/
def oneJoinedState : HubState :=
  { clients := [0]
    members := fun ch => if ch = "general" then [0] else []
    joined := fun c => if c = 0 then ["general"] else []
    queue := fun _ => []
    closing := fun _ => false }

/-- A state in which member 1 of channel "general" has a full outbound
queue (256 pending envelopes) while member 2's queue is empty. -/
def fullQueueState : HubState :=
  { clients := [1, 2]
    members := fun ch => if ch = "general" then [1, 2] else []
    joined := fun c => if c = 1 ∨ c = 2 then ["general"] else []
    queue := fun c => if c = 1 then List.replicate 256 Envelope.ping else []
    closing := fun _ => false }

/-! Theorems. -/

lemma consistent_registerClient (s : HubState) (oc : Option ClientId)
    (h : consistent s) : consistent (registerClient s oc) := by
  cases oc with
  | none => exact h
  | some a =>
      simp only [registerClient]
      by_cases hmem : a ∈ s.clients
      · rw [if_pos hmem]; exact h
      · rw [if_neg hmem]; exact h

lemma consistent_unregisterClient (s : HubState) (oc : Option ClientId)
    (h : consistent s) : consistent (unregisterClient s oc) := by
  cases oc with
  | none => exact h
  | some a =>
      simp only [unregisterClient]
      by_cases hmem : a ∈ s.clients
      · rw [if_pos hmem]
        intro x ch
        by_cases hx : x = a
        · subst hx
          simp [List.mem_filter]
        · simp [hx, List.mem_filter, h x ch]
      · rw [if_neg hmem]; exact h

lemma mem_insertList {α : Type} [DecidableEq α] (l : List α) (a b : α) :
    (b ∈ if a ∈ l then l else l ++ [a]) ↔ (b ∈ l ∨ b = a) := by
  split_ifs with hmem
  · constructor
    · exact Or.inl
    · rintro (hb | rfl)
      · exact hb
      · exact hmem
  · simp [List.mem_append]

lemma consistent_hubJoinChannel (s : HubState) (oc : Option ClientId)
    (ch : ChannelId) (h : consistent s) : consistent (hubJoinChannel s oc ch) := by
  cases oc with
  | none => exact h
  | some a =>
      intro x ch'
      simp only [hubJoinChannel]
      by_cases hx : x = a <;> by_cases hch : ch' = ch
      · simp only [hx, hch, eq_self_iff_true, ite_true]
        rw [mem_insertList, mem_insertList]
        simp
      · simp only [hx, eq_self_iff_true, ite_true, if_neg hch]
        rw [mem_insertList]
        simp [hch, h a ch']
      · simp only [hch, eq_self_iff_true, ite_true, if_neg hx]
        rw [mem_insertList]
        simp [hx, h x ch]
      · simp only [if_neg hx, if_neg hch]
        exact h x ch'

lemma consistent_hubLeaveChannel (s : HubState) (oc : Option ClientId)
    (ch : ChannelId) (h : consistent s) : consistent (hubLeaveChannel s oc ch) := by
  cases oc with
  | none => exact h
  | some a =>
      intro x ch'
      simp only [hubLeaveChannel]
      by_cases hx : x = a <;> by_cases hch : ch' = ch <;>
        simp [hx, hch, List.mem_filter, h a ch', h x ch, h x ch']

lemma consistent_clientJoinChannel (s : HubState) (c : ClientId) (ch : ChannelId)
    (h : consistent s) (hm : c ∈ s.members ch) :
    consistent (clientJoinChannel s c ch) := by
  intro x ch'
  simp only [clientJoinChannel]
  by_cases hx : x = c <;> by_cases hch : ch' = ch
  · simp only [hx, hch, eq_self_iff_true, ite_true]
    rw [mem_insertList]
    simp [hm]
  · simp only [hx, eq_self_iff_true, ite_true]
    rw [mem_insertList]
    simp [hch, h c ch']
  · simp only [if_neg hx, hch]
    exact h x ch
  · simp only [if_neg hx]
    exact h x ch'

lemma consistent_clientLeaveChannel (s : HubState) (c : ClientId) (ch : ChannelId)
    (h : consistent s) (hm : c ∉ s.members ch) :
    consistent (clientLeaveChannel s c ch) := by
  intro x ch'
  simp only [clientLeaveChannel]
  by_cases hx : x = c <;> by_cases hch : ch' = ch <;>
    simp [hx, hch, List.mem_filter, hm, h c ch', h x ch, h x ch']

/-- Claim C1 counterexample: the implemented client-side
`Client.JoinChannel` mutates only the connection's own joined-set, so
applied on its own from a consistent state (here: the fresh hub) it breaks
the mutual-consistency invariant. -/
theorem client_join_breaks_consistency :
    consistent emptyHub ∧ ¬ consistent (clientJoinChannel emptyHub 0 "general") := by
  constructor
  · intro c ch
    simp [emptyHub]
  · intro h
    have h0 := h 0 "general"
    simp [clientJoinChannel, emptyHub] at h0

/-- Claim C1 (amended): every Hub operation (RegisterClient,
UnregisterClient, JoinChannel, LeaveChannel) preserves the mutual
consistency of the connections' joined-sets and the hub's per-channel
member-sets; the standalone client-side JoinChannel (resp. LeaveChannel)
mutates only the connection's joined-set and preserves the invariant only
when the hub's member-set for that channel already contains (resp. does not
contain) the connection. -/
theorem hub_ops_preserve_consistency (s : HubState) (oc : Option ClientId)
    (c : ClientId) (ch : ChannelId) (hcons : consistent s) :
    consistent (registerClient s oc) ∧
    consistent (unregisterClient s oc) ∧
    consistent (hubJoinChannel s oc ch) ∧
    consistent (hubLeaveChannel s oc ch) ∧
    (c ∈ s.members ch → consistent (clientJoinChannel s c ch)) ∧
    (c ∉ s.members ch → consistent (clientLeaveChannel s c ch)) :=
  ⟨consistent_registerClient s oc hcons,
   consistent_unregisterClient s oc hcons,
   consistent_hubJoinChannel s oc ch hcons,
   consistent_hubLeaveChannel s oc ch hcons,
   fun hm => consistent_clientJoinChannel s c ch hcons hm,
   fun hm => consistent_clientLeaveChannel s c ch hcons hm⟩

/-- Claim C1 witness: the amended preservation theorem instantiated at the
fresh hub, client 0 and channel "general". -/
theorem hub_ops_preserve_consistency_witness :
    consistent (registerClient emptyHub (some 0)) ∧
    consistent (unregisterClient emptyHub (some 0)) ∧
    consistent (hubJoinChannel emptyHub (some 0) "general") ∧
    consistent (hubLeaveChannel emptyHub (some 0) "general") ∧
    (0 ∈ emptyHub.members "general" → consistent (clientJoinChannel emptyHub 0 "general")) ∧
    (0 ∉ emptyHub.members "general" → consistent (clientLeaveChannel emptyHub 0 "general")) :=
  hub_ops_preserve_consistency emptyHub (some 0) 0 "general"
    (fun c ch => by simp [emptyHub])

/-- Claim C3: after Hub.JoinChannel the client is a member, and the channel
member count grows by exactly 1 unless the client was already a member. -/
theorem hub_join_channel_correct (s : HubState) (c : ClientId) (ch : ChannelId)
    (hreg : c ∈ s.clients) :
    (hubJoinChannel s (some c) ch).isClientInChannel (some c) ch = true ∧
    (hubJoinChannel s (some c) ch).getChannelClientCount ch =
      (if c ∈ s.members ch then s.getChannelClientCount ch
       else s.getChannelClientCount ch + 1) := by
  constructor
  · simp only [hubJoinChannel, HubState.isClientInChannel, eq_self_iff_true, ite_true,
      decide_eq_true_eq]
    rw [mem_insertList]
    exact Or.inr rfl
  · simp only [hubJoinChannel, HubState.getChannelClientCount, eq_self_iff_true, ite_true]
    by_cases hm : c ∈ s.members ch
    · simp [hm]
    · simp [hm]

/-- Claim C3 witness: joining channel "general" again from the
one-client state, where client 0 is already a member. -/
theorem hub_join_channel_correct_witness :
    (hubJoinChannel oneJoinedState (some 0) "general").isClientInChannel (some 0) "general"
      = true ∧
    (hubJoinChannel oneJoinedState (some 0) "general").getChannelClientCount "general" =
      (if 0 ∈ oneJoinedState.members "general" then
        oneJoinedState.getChannelClientCount "general"
       else oneJoinedState.getChannelClientCount "general" + 1) :=
  hub_join_channel_correct oneJoinedState 0 "general" (by simp [oneJoinedState])

lemma length_filter_ne {α : Type} [DecidableEq α] (l : List α) (c : α)
    (hnd : l.Nodup) (hc : c ∈ l) :
    (l.filter (fun x => decide (x ≠ c))).length + 1 = l.length := by
  induction l with
  | nil => cases hc
  | cons a t ih =>
      rcases List.mem_cons.mp hc with rfl | hct
      · have hnt : c ∉ t := (List.nodup_cons.mp hnd).1
        have hflt : t.filter (fun x => decide (x ≠ c)) = t := by
          rw [List.filter_eq_self]
          intro x hx
          simp only [decide_eq_true_eq]
          intro hxc
          exact hnt (hxc ▸ hx)
        rw [List.filter_cons, if_neg (by simp : ¬(decide (c ≠ c) = true)), hflt]
        simp
      · have hnd' := (List.nodup_cons.mp hnd).2
        have hac : a ≠ c := fun h => (List.nodup_cons.mp hnd).1 (h ▸ hct)
        have h2 := ih hnd' hct
        rw [List.filter_cons, if_pos (by simp [hac] : decide (a ≠ c) = true)]
        simp only [List.length_cons]
        omega

lemma unregisterClient_not_mem (s : HubState) (c : ClientId) (h : c ∉ s.clients) :
    unregisterClient s (some c) = s := by
  simp [unregisterClient, h]

/-- Claim C4: after Hub.UnregisterClient the connection is absent from every
channel member-set, each channel it had joined loses exactly one member,
and the operation is idempotent and a no-op on a nil or unknown
connection. -/
theorem unregister_client_cleanup (s : HubState) (c d : ClientId)
    (hwf : wellFormed s) (hcons : consistent s) (hreg : c ∈ s.clients)
    (hunk : d ∉ s.clients) :
    (∀ ch, c ∉ (unregisterClient s (some c)).members ch) ∧
    (∀ ch, ch ∈ s.joined c →
      (unregisterClient s (some c)).getChannelClientCount ch + 1 =
        s.getChannelClientCount ch) ∧
    unregisterClient (unregisterClient s (some c)) (some c) =
      unregisterClient s (some c) ∧
    unregisterClient s none = s ∧
    unregisterClient s (some d) = s := by
  refine ⟨?_, ?_, ?_, rfl, unregisterClient_not_mem s d hunk⟩
  · intro ch
    simp [unregisterClient, hreg, List.mem_filter]
  · intro ch hj
    have hm : c ∈ s.members ch := (hcons c ch).mp hj
    simp only [unregisterClient, hreg, ite_true, HubState.getChannelClientCount, if_pos]
    exact length_filter_ne (s.members ch) c (hwf.2.1 ch) hm
  · apply unregisterClient_not_mem
    simp [unregisterClient, hreg, List.mem_filter]

/-- Claim C4 witness: unregistering client 0 (a member of "general") from
the one-client state, with client 5 unknown. -/
theorem unregister_client_cleanup_witness :
    (∀ ch, 0 ∉ (unregisterClient oneJoinedState (some 0)).members ch) ∧
    (∀ ch, ch ∈ oneJoinedState.joined 0 →
      (unregisterClient oneJoinedState (some 0)).getChannelClientCount ch + 1 =
        oneJoinedState.getChannelClientCount ch) ∧
    unregisterClient (unregisterClient oneJoinedState (some 0)) (some 0) =
      unregisterClient oneJoinedState (some 0) ∧
    unregisterClient oneJoinedState none = oneJoinedState ∧
    unregisterClient oneJoinedState (some 5) = oneJoinedState := by
  apply unregister_client_cleanup
  · refine ⟨by simp [oneJoinedState], fun ch => ?_, fun c => ?_⟩
    · simp only [oneJoinedState]
      split <;> simp
    · simp only [oneJoinedState]
      split <;> simp
  · intro c ch
    simp only [oneJoinedState]
    by_cases hc : c = 0 <;> by_cases hch : ch = "general" <;> simp [hc, hch]
  · simp [oneJoinedState]
  · simp [oneJoinedState]

lemma clients_nodup_applyEvent (s : HubState) (e : RegEvent) (h : s.clients.Nodup) :
    (applyEvent s e).clients.Nodup := by
  cases e with
  | reg oc =>
      cases oc with
      | none => exact h
      | some a =>
          simp only [applyEvent, registerClient]
          by_cases hm : a ∈ s.clients
          · rw [if_pos hm]; exact h
          · rw [if_neg hm]; exact List.nodup_cons.mpr ⟨hm, h⟩
  | unreg oc =>
      cases oc with
      | none => exact h
      | some a =>
          simp only [applyEvent, unregisterClient]
          by_cases hm : a ∈ s.clients
          · rw [if_pos hm]; exact h.filter _
          · rw [if_neg hm]; exact h

lemma clients_nodup_applyEvents (evs : List RegEvent) (s : HubState)
    (h : s.clients.Nodup) : (applyEvents s evs).clients.Nodup := by
  induction evs generalizing s with
  | nil => exact h
  | cons e t ih => exact ih (applyEvent s e) (clients_nodup_applyEvent s e h)

lemma mem_applyEvent (s : HubState) (e : RegEvent) (c : ClientId) :
    (c ∈ (applyEvent s e).clients) ↔ regStep c (decide (c ∈ s.clients)) e = true := by
  cases e with
  | reg oc =>
      cases oc with
      | none => simp [applyEvent, registerClient, regStep]
      | some a =>
          simp only [applyEvent, registerClient, regStep]
          by_cases hac : a = c
          · subst hac
            simp only [eq_self_iff_true, ite_true]
            by_cases hm : a ∈ s.clients
            · rw [if_pos hm]; simp [hm]
            · rw [if_neg hm]; simp
          · rw [if_neg hac]
            by_cases hm : a ∈ s.clients
            · rw [if_pos hm]; simp
            · rw [if_neg hm]
              simp [List.mem_cons, Ne.symm hac]
  | unreg oc =>
      cases oc with
      | none => simp [applyEvent, unregisterClient, regStep]
      | some a =>
          simp only [applyEvent, unregisterClient, regStep]
          by_cases hac : a = c
          · subst hac
            simp only [eq_self_iff_true, ite_true]
            by_cases hm : a ∈ s.clients
            · rw [if_pos hm]; simp [List.mem_filter]
            · rw [if_neg hm]; simp [hm]
          · rw [if_neg hac]
            by_cases hm : a ∈ s.clients
            · rw [if_pos hm]
              simp [List.mem_filter, Ne.symm hac]
            · rw [if_neg hm]; simp

lemma mem_applyEvents (evs : List RegEvent) (s : HubState) (c : ClientId) :
    (c ∈ (applyEvents s evs).clients) ↔
      evs.foldl (regStep c) (decide (c ∈ s.clients)) = true := by
  induction evs generalizing s with
  | nil => simp [applyEvents]
  | cons e t ih =>
      simp only [applyEvents, List.foldl_cons]
      have step := mem_applyEvent s e c
      have hb2 : decide (c ∈ (applyEvent s e).clients) =
          regStep c (decide (c ∈ s.clients)) e := by
        cases hR : regStep c (decide (c ∈ s.clients)) e
        · apply decide_eq_false
          intro hmem
          have ht := step.mp hmem
          rw [hR] at ht
          exact Bool.false_ne_true ht
        · exact decide_eq_true (step.mpr hR)
      rw [← hb2]
      exact ih (applyEvent s e)

lemma foldl_regStep_true_mem (c : ClientId) (evs : List RegEvent) :
    ∀ b : Bool, evs.foldl (regStep c) b = true →
      b = true ∨ (RegEvent.reg (some c)) ∈ evs := by
  induction evs with
  | nil =>
      intro b h
      exact Or.inl h
  | cons e t ih =>
      intro b h
      rcases ih (regStep c b e) h with hstep | hmem
      · cases e with
        | reg oc =>
            cases oc with
            | none => exact Or.inl hstep
            | some x =>
                by_cases hx : x = c
                · subst hx
                  exact Or.inr (List.mem_cons_self _ _)
                · simp only [regStep, if_neg hx] at hstep
                  exact Or.inl hstep
        | unreg oc =>
            cases oc with
            | none => exact Or.inl hstep
            | some x =>
                by_cases hx : x = c
                · subst hx
                  simp [regStep] at hstep
                · simp only [regStep, if_neg hx] at hstep
                  exact Or.inl hstep
      · exact Or.inr (List.mem_cons_of_mem _ hmem)

lemma finallyRegistered_mem_regIds (evs : List RegEvent) (c : ClientId)
    (h : finallyRegistered evs c = true) : c ∈ regIds evs := by
  rcases foldl_regStep_true_mem c evs false h with hb | hmem
  · exact absurd hb (by simp)
  · exact List.mem_filterMap.mpr ⟨RegEvent.reg (some c), hmem, rfl⟩

/-- Claim C2: over any sequence of RegisterClient/UnregisterClient calls
from a fresh hub, the final GetClientCount equals the number of distinct
registered connections not subsequently unregistered; registering one
non-null client on the fresh hub yields count 1, and unregistering an
unknown client or a nil client leaves the state (hence the count)
unchanged. -/
theorem hub_client_count_correct (evs : List RegEvent) (s : HubState)
    (c : ClientId) (hunk : c ∉ s.clients) :
    (applyEvents emptyHub evs).getClientCount = specClientCount evs ∧
    (registerClient emptyHub (some c)).getClientCount = 1 ∧
    (unregisterClient s (some c)).getClientCount = s.getClientCount ∧
    unregisterClient s none = s := by
  refine ⟨?_, ?_, ?_, rfl⟩
  · have hnd : (applyEvents emptyHub evs).clients.Nodup :=
      clients_nodup_applyEvents evs emptyHub (by simp [emptyHub])
    have hndR : ((regIds evs).dedup.filter fun x => finallyRegistered evs x).Nodup :=
      (List.nodup_dedup _).filter _
    have hmem : ∀ a, a ∈ (applyEvents emptyHub evs).clients ↔
        a ∈ (regIds evs).dedup.filter fun x => finallyRegistered evs x := by
      intro a
      rw [mem_applyEvents, List.mem_filter, List.mem_dedup]
      constructor
      · intro h
        have hfr : finallyRegistered evs a = true := by
          simpa [finallyRegistered, emptyHub] using h
        exact ⟨finallyRegistered_mem_regIds evs a hfr, hfr⟩
      · rintro ⟨-, hfr⟩
        simpa [finallyRegistered, emptyHub] using hfr
    have hperm :
        List.Perm (applyEvents emptyHub evs).clients
          ((regIds evs).dedup.filter fun x => finallyRegistered evs x) :=
      (List.perm_ext_iff_of_nodup hnd hndR).mpr hmem
    simpa [HubState.getClientCount, specClientCount] using hperm.length_eq
  · simp [registerClient, emptyHub, HubState.getClientCount]
  · rw [unregisterClient_not_mem s c hunk]

/-- Claim C2 witness: the count law at the concrete sequence
register 0, register 1, unregister 0 (final count 1), with client 7
unknown to the fresh hub. -/
theorem hub_client_count_correct_witness :
    (applyEvents emptyHub
        [RegEvent.reg (some 0), RegEvent.reg (some 1), RegEvent.unreg (some 0)]).getClientCount =
      specClientCount
        [RegEvent.reg (some 0), RegEvent.reg (some 1), RegEvent.unreg (some 0)] ∧
    (registerClient emptyHub (some 7)).getClientCount = 1 ∧
    (unregisterClient emptyHub (some 7)).getClientCount = emptyHub.getClientCount ∧
    unregisterClient emptyHub none = emptyHub :=
  hub_client_count_correct
    [RegEvent.reg (some 0), RegEvent.reg (some 1), RegEvent.unreg (some 0)]
    emptyHub 7 (by simp [emptyHub])

lemma sendEnvelope_queue_other (s : HubState) (c x : ClientId) (e : Envelope)
    (hx : x ≠ c) : (sendEnvelope s c e).queue x = s.queue x := by
  simp only [sendEnvelope]
  by_cases hlen : (s.queue c).length < sendCapacity
  · rw [if_pos hlen]
    simp [hx]
  · rw [if_neg hlen]
    simp only [unregisterClient]
    by_cases hm : c ∈ s.clients
    · rw [if_pos hm]
    · rw [if_neg hm]

lemma sendEnvelope_queue_self_lt (s : HubState) (c : ClientId) (e : Envelope)
    (h : (s.queue c).length < sendCapacity) :
    (sendEnvelope s c e).queue c = s.queue c ++ [e] := by
  simp only [sendEnvelope]
  rw [if_pos h]
  simp

lemma sendEnvelope_queue_self_full (s : HubState) (c : ClientId) (e : Envelope)
    (h : ¬(s.queue c).length < sendCapacity) :
    (sendEnvelope s c e).queue c = s.queue c := by
  simp only [sendEnvelope]
  rw [if_neg h]
  simp only [unregisterClient]
  by_cases hm : c ∈ s.clients
  · rw [if_pos hm]
  · rw [if_neg hm]

lemma broadcastStep_queue_other (e : Envelope) (ex : Option ClientId)
    (s : HubState) (m x : ClientId) (hxm : x ≠ m) :
    (broadcastStep e ex s m).queue x = s.queue x := by
  simp only [broadcastStep]
  by_cases hex : some m = ex
  · rw [if_pos hex]
  · rw [if_neg hex]
    exact sendEnvelope_queue_other s m x e hxm

lemma foldl_broadcastStep_queue (e : Envelope) (ex : Option ClientId)
    (L : List ClientId) :
    ∀ (s : HubState) (x : ClientId), L.Nodup →
      (L.foldl (broadcastStep e ex) s).queue x =
        (if x ∈ L ∧ some x ≠ ex ∧ (s.queue x).length < sendCapacity
         then s.queue x ++ [e] else s.queue x) := by
  induction L with
  | nil =>
      intro s x _
      simp
  | cons m t ih =>
      intro s x hnd
      have hm := (List.nodup_cons.mp hnd).1
      have ht := (List.nodup_cons.mp hnd).2
      simp only [List.foldl_cons]
      rw [ih (broadcastStep e ex s m) x ht]
      by_cases hxm : x = m
      · subst hxm
        by_cases hex : some x = ex
        · simp only [broadcastStep, if_pos hex]
          simp [hm, hex]
        · simp only [broadcastStep, if_neg hex]
          by_cases hlen : (s.queue x).length < sendCapacity
          · rw [sendEnvelope_queue_self_lt s x e hlen]
            simp [hm, hex, hlen]
          · rw [sendEnvelope_queue_self_full s x e hlen]
            simp [hm, hex, hlen]
      · rw [broadcastStep_queue_other e ex s m x hxm]
        simp [List.mem_cons, hxm]

/-- Claim C5 counterexample: broadcasting to "general" (no exclusion) from
a state where member 1 has a full outbound queue does not enqueue the
envelope onto member 1's queue — the backpressure policy disconnects the
slow consumer instead of enqueueing. -/
theorem broadcast_full_member_not_enqueued :
    1 ∈ fullQueueState.members "general" ∧
    (broadcastToChannel fullQueueState "general" Envelope.pong none).queue 1 ≠
      fullQueueState.queue 1 ++ [Envelope.pong] := by
  have hlen : (fullQueueState.queue 1).length = 256 :=
    List.length_replicate 256 Envelope.ping
  constructor
  · decide
  · intro h
    have hl := congrArg List.length h
    rw [broadcastToChannel,
      foldl_broadcastStep_queue Envelope.pong none (fullQueueState.members "general")
        fullQueueState 1 (by decide)] at hl
    rw [if_neg] at hl
    · rw [List.length_append, hlen] at hl
      simp at hl
    · rintro ⟨-, -, hlt⟩
      rw [hlen] at hlt
      exact absurd hlt (by norm_num [sendCapacity])

/-- Claim C5 (amended): BroadcastToChannel(X, E, exclude=C) enqueues E
exactly once onto the outbound queue of every member of X other than C
whose queue is below capacity (a member with a full queue is instead
force-disconnected, per the backpressure policy), and enqueues nothing onto
C's queue or onto the queue of any connection not in X's member set. -/
theorem broadcast_to_channel_delivery (s : HubState) (ch : ChannelId)
    (e : Envelope) (ex : Option ClientId) (m : ClientId) (hwf : wellFormed s) :
    (m ∈ s.members ch → some m ≠ ex → (s.queue m).length < sendCapacity →
      (broadcastToChannel s ch e ex).queue m = s.queue m ++ [e]) ∧
    (some m = ex → (broadcastToChannel s ch e ex).queue m = s.queue m) ∧
    (m ∉ s.members ch → (broadcastToChannel s ch e ex).queue m = s.queue m) := by
  have hq := foldl_broadcastStep_queue e ex (s.members ch) s m (hwf.2.1 ch)
  refine ⟨?_, ?_, ?_⟩
  · intro h1 h2 h3
    rw [broadcastToChannel, hq, if_pos ⟨h1, h2, h3⟩]
  · intro h
    rw [broadcastToChannel, hq, if_neg]
    rintro ⟨-, hne, -⟩
    exact hne h
  · intro h
    rw [broadcastToChannel, hq, if_neg]
    rintro ⟨hmem, -, -⟩
    exact h hmem

/-- Claim C5 witness: in the full-queue state, member 2 (queue below
capacity) receives the envelope, the excluded member receives nothing, and
a non-member receives nothing. -/
theorem broadcast_to_channel_delivery_witness :
    (2 ∈ fullQueueState.members "general" → some 2 ≠ none →
      (fullQueueState.queue 2).length < sendCapacity →
      (broadcastToChannel fullQueueState "general" Envelope.pong none).queue 2 =
        fullQueueState.queue 2 ++ [Envelope.pong]) ∧
    (some 2 = none →
      (broadcastToChannel fullQueueState "general" Envelope.pong none).queue 2 =
        fullQueueState.queue 2) ∧
    (2 ∉ fullQueueState.members "general" →
      (broadcastToChannel fullQueueState "general" Envelope.pong none).queue 2 =
        fullQueueState.queue 2) := by
  refine broadcast_to_channel_delivery fullQueueState "general" Envelope.pong none 2
    ⟨by decide, fun ch => ?_, fun c => ?_⟩
  · show (if ch = "general" then [1, 2] else ([] : List ClientId)).Nodup
    split <;> simp
  · show (if c = 1 ∨ c = 2 then ["general"] else ([] : List ChannelId)).Nodup
    split <;> simp

lemma broadcastStep_closing_mono (e : Envelope) (ex : Option ClientId)
    (s : HubState) (m x : ClientId) (h : s.closing x = true) :
    (broadcastStep e ex s m).closing x = true := by
  simp only [broadcastStep]
  by_cases hex : some m = ex
  · rw [if_pos hex]; exact h
  · rw [if_neg hex]
    simp only [sendEnvelope]
    by_cases hlen : (s.queue m).length < sendCapacity
    · rw [if_pos hlen]; exact h
    · rw [if_neg hlen]
      simp only [unregisterClient]
      by_cases hm : m ∈ s.clients
      · rw [if_pos hm]
        by_cases hxm : x = m
        · simp [hxm]
        · simp [hxm, h]
      · rw [if_neg hm]
        by_cases hxm : x = m
        · simp [hxm]
        · simp [hxm, h]

lemma broadcastStep_not_client (e : Envelope) (ex : Option ClientId)
    (s : HubState) (m x : ClientId) (h : x ∉ s.clients) :
    x ∉ (broadcastStep e ex s m).clients := by
  simp only [broadcastStep]
  by_cases hex : some m = ex
  · rw [if_pos hex]; exact h
  · rw [if_neg hex]
    simp only [sendEnvelope]
    by_cases hlen : (s.queue m).length < sendCapacity
    · rw [if_pos hlen]; exact h
    · rw [if_neg hlen]
      simp only [unregisterClient]
      by_cases hm : m ∈ s.clients
      · rw [if_pos hm]
        intro hmem
        exact h (List.mem_filter.mp hmem).1
      · rw [if_neg hm]; exact h

lemma broadcastStep_clients_other (e : Envelope) (ex : Option ClientId)
    (s : HubState) (m x : ClientId) (hxm : x ≠ m) (h : x ∈ s.clients) :
    x ∈ (broadcastStep e ex s m).clients := by
  simp only [broadcastStep]
  by_cases hex : some m = ex
  · rw [if_pos hex]; exact h
  · rw [if_neg hex]
    simp only [sendEnvelope]
    by_cases hlen : (s.queue m).length < sendCapacity
    · rw [if_pos hlen]; exact h
    · rw [if_neg hlen]
      simp only [unregisterClient]
      by_cases hm : m ∈ s.clients
      · rw [if_pos hm]
        simp [List.mem_filter, h, hxm]
      · rw [if_neg hm]; exact h

lemma foldl_broadcastStep_closing_mono (e : Envelope) (ex : Option ClientId)
    (L : List ClientId) :
    ∀ (s : HubState) (x : ClientId), s.closing x = true →
      (L.foldl (broadcastStep e ex) s).closing x = true := by
  induction L with
  | nil => intro s x h; exact h
  | cons m t ih =>
      intro s x h
      exact ih (broadcastStep e ex s m) x (broadcastStep_closing_mono e ex s m x h)

lemma foldl_broadcastStep_not_client (e : Envelope) (ex : Option ClientId)
    (L : List ClientId) :
    ∀ (s : HubState) (x : ClientId), x ∉ s.clients →
      x ∉ (L.foldl (broadcastStep e ex) s).clients := by
  induction L with
  | nil => intro s x h; exact h
  | cons m t ih =>
      intro s x h
      exact ih (broadcastStep e ex s m) x (broadcastStep_not_client e ex s m x h)

lemma foldl_broadcastStep_full (e : Envelope) (ex : Option ClientId)
    (L : List ClientId) :
    ∀ (s : HubState) (c : ClientId), c ∈ L → some c ≠ ex →
      ¬(s.queue c).length < sendCapacity → c ∈ s.clients →
      (L.foldl (broadcastStep e ex) s).closing c = true ∧
        c ∉ (L.foldl (broadcastStep e ex) s).clients := by
  induction L with
  | nil =>
      intro s c hc
      cases hc
  | cons m t ih =>
      intro s c hc hex hfull hcl
      by_cases hcm : c = m
      · subst hcm
        simp only [List.foldl_cons, broadcastStep, if_neg hex, sendEnvelope,
          if_neg hfull]
        have hcl2 :
            (unregisterClient
              { s with closing := fun x => if x = c then true else s.closing x }
              (some c)).closing c = true := by
          simp only [unregisterClient]
          rw [if_pos hcl]
          simp
        have hncl :
            c ∉ (unregisterClient
              { s with closing := fun x => if x = c then true else s.closing x }
              (some c)).clients := by
          simp only [unregisterClient]
          rw [if_pos hcl]
          simp [List.mem_filter]
        exact ⟨foldl_broadcastStep_closing_mono e ex t _ c hcl2,
               foldl_broadcastStep_not_client e ex t _ c hncl⟩
      · have hct : c ∈ t := (List.mem_cons.mp hc).resolve_left hcm
        simp only [List.foldl_cons]
        apply ih
        · exact hct
        · exact hex
        · rw [broadcastStep_queue_other e ex s m c hcm]
          exact hfull
        · exact broadcastStep_clients_other e ex s m c hcm hcl

/-- Claim C6: a broadcast reaching a connection whose outbound queue
already holds 256 pending envelopes (full capacity) transitions that
connection to Closing and removes it from the hub's registry. -/
theorem full_queue_broadcast_closes (s : HubState) (c : ClientId)
    (ch : ChannelId) (e : Envelope) (ex : Option ClientId)
    (hmem : c ∈ s.members ch) (hex : some c ≠ ex)
    (hfull : (s.queue c).length = 256) (hreg : c ∈ s.clients) :
    (broadcastToChannel s ch e ex).closing c = true ∧
    c ∉ (broadcastToChannel s ch e ex).clients := by
  have hnlt : ¬(s.queue c).length < sendCapacity := by
    simp [hfull, sendCapacity]
  exact foldl_broadcastStep_full e ex (s.members ch) s c hmem hex hnlt hreg

/-- Claim C6 witness: member 1 of "general" with a full queue of 256
pings gets disconnected by one more broadcast. -/
theorem full_queue_broadcast_closes_witness :
    (broadcastToChannel fullQueueState "general" Envelope.pong none).closing 1 = true ∧
    1 ∉ (broadcastToChannel fullQueueState "general" Envelope.pong none).clients :=
  full_queue_broadcast_closes fullQueueState 1 "general" Envelope.pong none
    (by decide) (by simp)
    (List.length_replicate 256 Envelope.ping) (by decide)

/-- Claim C9: the protocol limits equal the specified constants — maximum
inbound frame size 512 bytes, pong timeout 60s, write deadline 10s, ping
period exactly 9/10 of the pong timeout, and every new client's outbound
queue has capacity 256. -/
theorem protocol_constants_correct :
    maxMessageSize = 512 ∧
    pongWait = 60 * goSecond ∧
    writeWait = 10 * goSecond ∧
    pingPeriod * 10 = pongWait * 9 ∧
    ∀ u un, (newClient u un).sendCap = 256 :=
  ⟨rfl, rfl, rfl, by norm_num [pingPeriod, pongWait, goSecond], fun _ _ => rfl⟩

/-- Claim C10: the prototype inbound loop forwards every decoded message
with SenderID set to the connection's authenticated user id and ChannelID
set to the connection's current channel, regardless of the claimed fields;
two frames equal outside those fields forward identically. -/
theorem read_pump_fixes_sender_and_channel (c : PClient) (m m1 m2 : PMessage)
    (hc : m1.content = m2.content) (ht : m1.timestamp = m2.timestamp) :
    (forwardIncoming c m).senderID = c.userID ∧
    (forwardIncoming c m).channelID = c.channelID ∧
    forwardIncoming c m1 = forwardIncoming c m2 := by
  refine ⟨rfl, rfl, ?_⟩
  cases m1
  cases m2
  simp_all [forwardIncoming]

/-- Claim C10 witness: two concrete frames claiming different senders and
channels forward with the server-fixed sender and channel. -/
theorem read_pump_fixes_sender_and_channel_witness :
    (forwardIncoming ⟨"alice", "general"⟩ ⟨"spoofCh", "mallory", "hi", 7⟩).senderID = "alice" ∧
    (forwardIncoming ⟨"alice", "general"⟩ ⟨"spoofCh", "mallory", "hi", 7⟩).channelID = "general" ∧
    forwardIncoming ⟨"alice", "general"⟩ ⟨"a", "b", "hi", 7⟩ =
      forwardIncoming ⟨"alice", "general"⟩ ⟨"x", "y", "hi", 7⟩ :=
  read_pump_fixes_sender_and_channel ⟨"alice", "general"⟩
    ⟨"spoofCh", "mallory", "hi", 7⟩ ⟨"a", "b", "hi", 7⟩ ⟨"x", "y", "hi", 7⟩ rfl rfl

/-- Claim C7: an inbound frame that is malformed JSON or carries an unknown
type tag makes the dispatcher reply with exactly one error envelope whose
code is PARSE_ERROR, and the connection is neither closed nor unregistered
(the hub state is unchanged). -/
theorem malformed_frame_parse_error (s : HubState) (db : Db) (sender : ClientId)
    (u : UserId) (un : String) (f : Inbound)
    (h : f = Inbound.malformed ∨ ∃ t, f = Inbound.unknownTag t) :
    (handleMessage s db sender u un f).replies.length = 1 ∧
    (∀ r ∈ (handleMessage s db sender u un f).replies,
      ∃ msg, r = Envelope.err "PARSE_ERROR" msg) ∧
    (handleMessage s db sender u un f).closeConn = false ∧
    (handleMessage s db sender u un f).state = s := by
  rcases h with rfl | ⟨t, rfl⟩
  · refine ⟨rfl, ?_, rfl, rfl⟩
    intro r hr
    simp only [handleMessage, List.mem_singleton] at hr
    exact ⟨_, hr⟩
  · refine ⟨rfl, ?_, rfl, rfl⟩
    intro r hr
    simp only [handleMessage, List.mem_singleton] at hr
    exact ⟨_, hr⟩

/-- Claim C7 witness: a malformed frame from client 0 on the fresh hub. -/
theorem malformed_frame_parse_error_witness :
    (handleMessage emptyHub ⟨[], []⟩ 0 "alice" "alice" Inbound.malformed).replies.length
      = 1 ∧
    (∀ r ∈ (handleMessage emptyHub ⟨[], []⟩ 0 "alice" "alice" Inbound.malformed).replies,
      ∃ msg, r = Envelope.err "PARSE_ERROR" msg) ∧
    (handleMessage emptyHub ⟨[], []⟩ 0 "alice" "alice" Inbound.malformed).closeConn
      = false ∧
    (handleMessage emptyHub ⟨[], []⟩ 0 "alice" "alice" Inbound.malformed).state
      = emptyHub :=
  malformed_frame_parse_error emptyHub ⟨[], []⟩ 0 "alice" "alice" Inbound.malformed
    (Or.inl rfl)

/-- Claim C8: a chat envelope whose sender is not a current member of the
target channel produces exactly one error reply to the sender, persists no
message (the database is unchanged), does not broadcast (the hub state and
hence every outbound queue is unchanged), and does not close the
connection. -/
theorem nonmember_chat_rejected (s : HubState) (db : Db) (sender : ClientId)
    (u : UserId) (un : String) (ch : ChannelId) (content : String)
    (hna : canAccess db u ch = false) :
    (handleChatMessage s db sender u un ch content).replies.length = 1 ∧
    (∀ r ∈ (handleChatMessage s db sender u un ch content).replies,
      ∃ code msg, r = Envelope.err code msg) ∧
    (handleChatMessage s db sender u un ch content).persisted = none ∧
    (handleChatMessage s db sender u un ch content).db = db ∧
    (handleChatMessage s db sender u un ch content).state = s ∧
    (handleChatMessage s db sender u un ch content).closeConn = false := by
  rw [handleChatMessage, if_neg (by simp [hna])]
  refine ⟨rfl, ?_, rfl, rfl, rfl, rfl⟩
  intro r hr
  simp only [List.mem_singleton] at hr
  exact ⟨_, _, hr⟩

/-- Claim C8 witness: a chat for "general" from user "alice", who has no
membership row, against the fresh hub and an empty database. -/
theorem nonmember_chat_rejected_witness :
    (handleChatMessage emptyHub ⟨[], []⟩ 0 "alice" "alice" "general" "hi").replies.length
      = 1 ∧
    (∀ r ∈ (handleChatMessage emptyHub ⟨[], []⟩ 0 "alice" "alice" "general" "hi").replies,
      ∃ code msg, r = Envelope.err code msg) ∧
    (handleChatMessage emptyHub ⟨[], []⟩ 0 "alice" "alice" "general" "hi").persisted
      = none ∧
    (handleChatMessage emptyHub ⟨[], []⟩ 0 "alice" "alice" "general" "hi").db
      = ⟨[], []⟩ ∧
    (handleChatMessage emptyHub ⟨[], []⟩ 0 "alice" "alice" "general" "hi").state
      = emptyHub ∧
    (handleChatMessage emptyHub ⟨[], []⟩ 0 "alice" "alice" "general" "hi").closeConn
      = false :=
  nonmember_chat_rejected emptyHub ⟨[], []⟩ 0 "alice" "alice" "general" "hi" (by decide)

end GoChat
